import Mathlib

/-!
# skstore native binding: `skehandle.cc`

A shallow embedding of `src/skstore/ts/native/src/skehandle.cc`: the six
`EHandle` prototype methods (`get`, `maybeGet`, `size`, `map`, `mapReduce`,
`mapTo`) and the four callbacks the store calls back into
(`SKIP_SKStore_applyMapFun`, `SKIP_SKStore_applyAccumulate`,
`SKIP_SKStore_applyDismiss`, `SKIP_SKStore_applyConvertToRowFun`).

The file is C++ on top of V8.  Effects are made explicit:

* the isolate-wide state touched by the file (current-context marker, the
  registry of persistent handles) is a `State` record that is threaded
  through every function;
* every call that leaves the file (a call into the store, a call of a user
  closure, `isolate->ThrowException`) is appended to `State.trace`, so that
  "is not called" and "is called n times, in this order" are statements
  about the trace;
* pointers (`void*`, `char*` results) are natural numbers and `0` is
  `nullptr`.

Everything the file uses but does not define (the store behind the
`SKIP_SKStore_*` externs, the JSON codec `skjson`, `skbinding::CheckMapper`,
`ObjectWrap::Unwrap<THandle>`, and the behaviour of user functions) is
collected in the record `Env` and every definition is parametric in it.
-/

namespace skstore

/-! ## Pointers -/

/-- The C++ `nullptr`, for every pointer type of the file. -/
def nullptr : Nat := 0

/-- Source: `#define SKCONTEXT void*`. -/
abbrev SKCONTEXT := Nat
/-- Source: `#define SKWRITER void*`. -/
abbrev SKWRITER := Nat
/-- Source: `#define SKITERATOR void*`. -/
abbrev SKITERATOR := Nat
/-- Source: `#define CJSON void*`. -/
abbrev CJSON := Nat

/-! ## JavaScript values -/

/-- The two V8 exception constructors the file uses: `Exception::Error` and
`Exception::TypeError`. -/
inductive ErrorKind where
  | Error
  | TypeError
  deriving DecidableEq, Repr

/-- The JavaScript values the file can tell apart.  `ehandle id` is an object
wrapping a native `EHandle` whose `m_id` is `id` (see `EHandle::CreateAndWrap`);
`iterator it` is the object `NonEmptyIterator::Create` builds around the
store iterator `it`; `error k m` is the object built by `Exception::Error` or
`Exception::TypeError`.  Numbers are integers: the file never computes with
them. -/
inductive JsValue where
  | undefined
  | null
  | boolean (b : Bool)
  | number (n : Int)
  | string (s : String)
  | array (items : List JsValue)
  | object (fields : List (String × JsValue))
  | function (id : Nat)
  | ehandle (id : String)
  | iterator (it : SKITERATOR)
  | error (kind : ErrorKind) (message : String)

instance : Inhabited JsValue := ⟨JsValue.undefined⟩

namespace JsValue

/-- V8 `Value::IsNull`. -/
def IsNull : JsValue → Bool
  | null => true
  | _ => false

/-- V8 `Value::IsUndefined`. -/
def IsUndefined : JsValue → Bool
  | undefined => true
  | _ => false

/-- V8 `Value::IsString` (primitive strings). -/
def IsString : JsValue → Bool
  | string _ => true
  | _ => false

/-- V8 `Value::IsFunction`. -/
def IsFunction : JsValue → Bool
  | function _ => true
  | _ => false

/-- V8 `Value::IsObject`: everything that is not a primitive, so arrays,
functions and wrapped natives are objects too. -/
def IsObject : JsValue → Bool
  | array _ => true
  | object _ => true
  | function _ => true
  | ehandle _ => true
  | iterator _ => true
  | error _ _ => true
  | _ => false

/-- V8 `Object::Get(context, name)` for a property name, followed by
`ToLocalChecked`.  Only plain objects carry named properties here; a
missing property reads as `undefined`, as in JavaScript. -/
def Get : JsValue → String → JsValue
  | object fields, name => (fields.lookup name).getD undefined
  | _, _ => undefined

/-- V8 `Object::Get(context, index)` followed by `ToLocalChecked`, as used on
the entries of the mapper result: the element of an array at `index`, and
`undefined` past the end.  On an entry that is not an array the source casts
unchecked (`As<Array>`) and reads property `index` of whatever the entry is
(a property of an object, undefined behaviour on a primitive); the embedding
reads `undefined` there, so it follows the source on array entries only. -/
def GetIndex : JsValue → Nat → JsValue
  | array items, i => items.getD i undefined
  | _, _ => undefined

end JsValue

/-- Arguments of a native callback, `args[i]`: V8 answers `undefined` past
`args.Length()`. -/
def argAt (args : List JsValue) (i : Nat) : JsValue :=
  args.getD i JsValue.undefined

/-- Source: `Exception::TypeError(FromUtf8(isolate, msg))`. -/
def Exception.TypeError (msg : String) : JsValue :=
  JsValue.error ErrorKind.TypeError msg

/-- Source: `Exception::Error(FromUtf8(isolate, msg))`. -/
def Exception.Error (msg : String) : JsValue :=
  JsValue.error ErrorKind.Error msg

/-- The context error: the exception every `EHandle` method throws when
`GetContext()` is `nullptr` (the same message in all six methods). -/
def contextError : JsValue :=
  Exception.TypeError "Get cannot be called outside of a SKStore function."

/-! ## Effects -/

/-- Everything observable that the file does to the outside: the calls of the
`extern "C"` store functions, in the argument order of their declarations,
`isolate->ThrowException`, the call of a user function made by `SKTryCatch`,
and the failure `SKTryCatch` reports for a closure that threw. -/
inductive Event where
  | ksuid
  | get (ctx : SKCONTEXT) (handle : String) (key : CJSON)
  | maybeGet (ctx : SKCONTEXT) (handle : String) (key : CJSON)
  | size (ctx : SKCONTEXT) (handle : String)
  | map (ctx : SKCONTEXT) (eagerHdl : String) (name : String) (fnHdl : Nat)
  | mapReduce (ctx : SKCONTEXT) (eagerHdl : String) (name : String) (fnPtr : Nat)
      (accumulator : Nat) (accInit : CJSON)
  | toSkdb (ctx : SKCONTEXT) (eagerHdl : String) (table : String) (fnHdl : Nat)
  | writerSet (writer : SKWRITER) (key : CJSON) (value : CJSON)
  | throwException (e : JsValue)
  | call (fn : Nat) (recv : JsValue) (argv : List JsValue)
  | closureError (e : JsValue)

/-- The isolate-wide state the file reads and writes: the current-context
marker behind `GetContext`/`SwitchContext`/`RestoreContext`, the registry
behind `CreateHandle`/`GetHandle`, and the trace of effects so far.  The
list `markers` runs in step with `trace`: for every effect it holds the
current-context marker that was in force when the effect happened, so that
the order of an effect and a change of the marker can be read off. -/
structure State where
  context : SKCONTEXT
  handles : List JsValue
  trace : List Event
  markers : List SKCONTEXT

/-- Append one effect to the trace, stamped with the marker in force. -/
def State.emit (st : State) (e : Event) : State :=
  { st with trace := st.trace ++ [e], markers := st.markers ++ [st.context] }

/-- How a call made from JavaScript ends: with a return value or with a
thrown exception. -/
inductive Completion where
  | returned (v : JsValue)
  | threw (e : JsValue)

/-- The native `EHandle` object: `EHandle::EHandle(id) : m_id(id)`. -/
structure EHandle where
  m_id : String

/-- Source: `EHandle::getName`. -/
def EHandle.getName (h : EHandle) : String := h.m_id

/-- The prototype methods installed by `EHandle::Prototype`; the numbered
names (`map1` .. `mapN` and so on) are bound to the same three functions. -/
inductive Method where
  | get
  | maybeGet
  | size
  | map
  | mapReduce
  | mapTo
  deriving DecidableEq, Repr

/-- The behaviour of a user function, as far as this file can observe it: it
returns a value, throws, or calls a method of an `EHandle` and continues
with what that call produced (a JavaScript caller can catch what the method
throws, so the continuation receives the whole completion). -/
inductive Script where
  | ret (v : JsValue)
  | raise (e : JsValue)
  | invoke (m : Method) (self : EHandle) (args : List JsValue) (k : Completion → Script)

/-- What the file uses and does not define.

* `code fn recv argv`: what the user function with identity `fn` does when
  called with receiver `recv` and arguments `argv`.
* `NodeToSKStore`, `SKStoreToNode`: the codec of `skjson_utils.h`.
* `CheckMapper args fnnames name extra flag`: `skbinding::CheckMapper`; the
  source only shows that it yields the mapper object or an empty
  `MaybeLocal`, in which case the method returns at once; the exception it
  leaves pending is the error carried here.
* `unwrapTable v`: `ObjectWrap::Unwrap<THandle>(v)->m_table`.
* the `SKIP_SKStore_*` fields: the answers of the store; they may depend on
  every effect so far, which is passed as the first argument.  A store call
  is one step: evaluation that the store may start while it answers, and
  that would call back into the callbacks of this file, is not part of the
  embedding. -/
structure Env where
  code : Nat → JsValue → List JsValue → Script
  NodeToSKStore : JsValue → CJSON
  SKStoreToNode : CJSON → JsValue
  CheckMapper : List JsValue → List String → String → Nat → Bool → Except JsValue JsValue
  unwrapTable : JsValue → String
  SKIP_SKStore_ksuid : List Event → String
  SKIP_SKStore_get : List Event → SKCONTEXT → String → CJSON → CJSON
  SKIP_SKStore_maybeGet : List Event → SKCONTEXT → String → CJSON → CJSON
  SKIP_SKStore_size : List Event → SKCONTEXT → String → Int
  SKIP_SKStore_map : List Event → SKCONTEXT → String → String → Nat → String
  SKIP_SKStore_mapReduce :
    List Event → SKCONTEXT → String → String → Nat → Nat → CJSON → String

/-! ## skbinding helpers -/

/-- Source: `isolate->ThrowException(e)`. -/
def ThrowException (e : JsValue) (st : State) : State :=
  st.emit (Event.throwException e)

/-- Modelled from the spec: `skbinding::GetContext` is not in the file.  The
spec (4.4, 9) describes a single global current-computation-context marker;
`GetContext` reads it. -/
def GetContext (st : State) : SKCONTEXT := st.context

/-- Modelled from the spec: `skbinding::SwitchContext` is not in the file.  It
installs `ctx` as the current-context marker and returns the previous one
(the source keeps the result in `current` and hands it to
`RestoreContext`). -/
def SwitchContext (ctx : SKCONTEXT) (st : State) : SKCONTEXT × State :=
  (st.context, { st with context := ctx })

/-- Modelled from the spec: `skbinding::RestoreContext` is not in the file.  It
puts a marker saved by `SwitchContext` back. -/
def RestoreContext (ctx : SKCONTEXT) (st : State) : State :=
  { st with context := ctx }

/-- Modelled from the spec: `skbinding::CreateHandle` is not in the file.  The
closure registry contract of the spec (6) is `register(closure) -> identity`
with process-local integer identities; the identity handed out is the next
free index of the registry. -/
def CreateHandle (v : JsValue) (st : State) : Nat × State :=
  (st.handles.length, { st with handles := st.handles ++ [v] })

/-- Modelled from the spec: `skbinding::GetHandle` is not in the file.  The
registry contract `resolve(identity) -> closure`; `none` is the `false`
result of the source. -/
def GetHandle (st : State) (id : Nat) : Option JsValue :=
  st.handles.get? id

/-- Source: `EHandle::Create`: a new `EHandle` object around the name `hdl`
(the constructor `EHandle::New` accepts a string and wraps it with
`CreateAndWrap`). -/
def EHandle.Create (hdl : String) : Option JsValue :=
  some (JsValue.ehandle hdl)

/-! ## The prototype methods -/

/-- Source: `EHandle::Get`. -/
def EHandle.Get (env : Env) (self : EHandle) (args : List JsValue) (st : State) :
    Completion × State :=
  let ctx := GetContext st
  if ctx = nullptr then
    (Completion.threw contextError, ThrowException contextError st)
  else if args.length ≠ 1 then
    let e := Exception.TypeError "Must have one parameter"
    (Completion.threw e, ThrowException e st)
  else
    let skKey := env.NodeToSKStore (argAt args 0)
    let skHandle := self.m_id
    let skResult := env.SKIP_SKStore_get st.trace ctx skHandle skKey
    (Completion.returned (env.SKStoreToNode skResult), st.emit (Event.get ctx skHandle skKey))

/-- Source: `EHandle::MaybeGet`. -/
def EHandle.MaybeGet (env : Env) (self : EHandle) (args : List JsValue) (st : State) :
    Completion × State :=
  let ctx := GetContext st
  if ctx = nullptr then
    (Completion.threw contextError, ThrowException contextError st)
  else if args.length ≠ 1 then
    let e := Exception.TypeError "Must have one parameter"
    (Completion.threw e, ThrowException e st)
  else
    let skKey := env.NodeToSKStore (argAt args 0)
    let skHandle := self.m_id
    let skResult := env.SKIP_SKStore_maybeGet st.trace ctx skHandle skKey
    (Completion.returned (env.SKStoreToNode skResult),
      st.emit (Event.maybeGet ctx skHandle skKey))

/-- Source: `EHandle::Size`. -/
def EHandle.Size (env : Env) (self : EHandle) (_args : List JsValue) (st : State) :
    Completion × State :=
  let ctx := GetContext st
  if ctx = nullptr then
    (Completion.threw contextError, ThrowException contextError st)
  else
    let skHandle := self.m_id
    let skResult := env.SKIP_SKStore_size st.trace ctx skHandle
    (Completion.returned (JsValue.number skResult), st.emit (Event.size ctx skHandle))

/-- Source: `EHandle::Map`. -/
def EHandle.Map (env : Env) (self : EHandle) (args : List JsValue) (st : State) :
    Completion × State :=
  let ctx := GetContext st
  if ctx = nullptr then
    (Completion.threw contextError, ThrowException contextError st)
  else
    match env.CheckMapper args ["mapElement"] "EHandle.map" 0 false with
    | Except.error e => (Completion.threw e, st)
    | Except.ok mapperObj =>
      let skName := env.SKIP_SKStore_ksuid st.trace
      let st1 := st.emit Event.ksuid
      let skHandle := self.m_id
      let (mapper, st2) := CreateHandle mapperObj st1
      let skResult := env.SKIP_SKStore_map st2.trace ctx skHandle skName mapper
      let st3 := st2.emit (Event.map ctx skHandle skName mapper)
      match EHandle.Create skResult with
      | some result => (Completion.returned result, st3)
      | none => (Completion.returned JsValue.undefined, st3)

/-- Source: `EHandle::MapReduce`. -/
def EHandle.MapReduce (env : Env) (self : EHandle) (args : List JsValue) (st : State) :
    Completion × State :=
  let ctx := GetContext st
  if ctx = nullptr then
    (Completion.threw contextError, ThrowException contextError st)
  else
    match env.CheckMapper args ["mapElement"] "EHandle.mapReduce" 1 true with
    | Except.error e => (Completion.threw e, st)
    | Except.ok mapperObj =>
      let skName := env.SKIP_SKStore_ksuid st.trace
      let st1 := st.emit Event.ksuid
      if !(argAt args 1).IsObject then
        let e := Exception.TypeError
          "EHandle.mapReduce: The second parameter must be an object."
        (Completion.threw e, ThrowException e st1)
      else
        let accumulator := argAt args 1
        let accumulate := accumulator.Get "accumulate"
        let dismiss := accumulator.Get "dismiss"
        if !accumulate.IsFunction && !dismiss.IsFunction then
          let e := Exception.TypeError "The second parameter must be an Accumulator."
          (Completion.threw e, ThrowException e st1)
        else
          let skHandle := self.m_id
          let (mapper, st2) := CreateHandle mapperObj st1
          let (accMapper, st3) := CreateHandle accumulator st2
          let skInitValue := env.NodeToSKStore (accumulator.Get "default")
          let skResult :=
            env.SKIP_SKStore_mapReduce st3.trace ctx skHandle skName mapper accMapper skInitValue
          let st4 :=
            st3.emit (Event.mapReduce ctx skHandle skName mapper accMapper skInitValue)
          match EHandle.Create skResult with
          | some result => (Completion.returned result, st4)
          | none => (Completion.returned JsValue.undefined, st4)

/-- Source: `EHandle::MapTo`.  The table name is passed on as a value.  The
source reads it through a pointer into a `Utf8Value` whose scope has ended,
and `ObjectWrap::Unwrap<THandle>` aborts on an object that wraps no
`THandle`; neither is modelled, so the embedding says nothing reliable about
the table argument of `SKIP_SKStore_toSkdb`. -/
def EHandle.MapTo (env : Env) (self : EHandle) (args : List JsValue) (st : State) :
    Completion × State :=
  let ctx := GetContext st
  if ctx = nullptr then
    (Completion.threw contextError, ThrowException contextError st)
  else
    match env.CheckMapper args ["mapElement"] "EHandle.mapTo" 1 false with
    | Except.error e => (Completion.threw e, st)
    | Except.ok mapperObj =>
      if !(argAt args 0).IsString && !(argAt args 0).IsObject then
        let e := Exception.TypeError "The parameter must be a string or an object."
        (Completion.threw e, ThrowException e st)
      else
        let strTable :=
          match argAt args 0 with
          | JsValue.string table => table
          | object => env.unwrapTable object
        let skHandle := self.m_id
        let skTable := strTable
        let (mapper, st1) := CreateHandle mapperObj st
        (Completion.returned JsValue.undefined,
          st1.emit (Event.toSkdb ctx skHandle skTable mapper))

/-! ## Running user functions -/

/-- Dispatch of a method call made from JavaScript on an `EHandle` object
(the table of `EHandle::Prototype`). -/
def callMethod (env : Env) : Method → EHandle → List JsValue → State → Completion × State
  | Method.get => EHandle.Get env
  | Method.maybeGet => EHandle.MaybeGet env
  | Method.size => EHandle.Size env
  | Method.map => EHandle.Map env
  | Method.mapReduce => EHandle.MapReduce env
  | Method.mapTo => EHandle.MapTo env

/-- Run a user function to its end: every method call it makes is executed
on the current state and its completion is handed to the continuation. -/
def Script.run (env : Env) : Script → State → Completion × State
  | Script.ret v, st => (Completion.returned v, st)
  | Script.raise e, st => (Completion.threw e, st)
  | Script.invoke m self args k, st =>
    Script.run env (k (callMethod env m self args st).1) (callMethod env m self args st).2

/-- V8 `fn->Call(context, recv, argc, argv)` on a user function: the call is
recorded and the function is run to its end. -/
def callFunction (env : Env) (fn : Nat) (recv : JsValue) (argv : List JsValue)
    (st : State) : Completion × State :=
  Script.run env (env.code fn recv argv) (st.emit (Event.call fn recv argv))

/-- Modelled from the spec: `skbinding::SKTryCatch` is not in the file.  The
closure invocation bridge of the spec (4.5, 7): the function `fn` is called
with receiver `recv` and arguments `argv`; when it returns, the `success`
callback maps the result to what the store receives; when it throws, the
`failure` callback runs, a closure failure wrapping the thrown value is
raised to the store, and the store receives `nullptr`. -/
def SKTryCatch (env : Env) (fn : Nat) (recv : JsValue) (argv : List JsValue)
    (success : JsValue → State → CJSON × State) (failure : State → State)
    (st : State) : CJSON × State :=
  match callFunction env fn recv argv st with
  | (Completion.returned jsResult, st1) => success jsResult st1
  | (Completion.threw e, st1) => (nullptr, (failure st1).emit (Event.closureError e))

/-- Modelled from the spec: `skbinding::CallGlobalStaticMethod` is not in the
file; the source uses it to call the JavaScript builtin `Array.from` on the
mapper result, which the spec (4.2) describes as a sequence of pairs.  On an
array `Array.from` yields the elements in order and on a string its
characters.  On every other value the embedding yields the empty array; the
builtin differs there on objects that carry a `length` property (it honours
it) and on `null` and `undefined` (it throws), so the embedding follows the
builtin on arrays and strings only. -/
def ArrayFrom : JsValue → List JsValue
  | JsValue.array items => items
  | JsValue.string s => s.toList.map (fun c => JsValue.string c.toString)
  | _ => []

/-- The loop of the success callback of `SKIP_SKStore_applyMapFun`: entry `i`
of `jsArr`, for `i` from `0` to `jsArr->Length() - 1`, is written as
`SKIP_SKStore_writerSet(writer, NodeToSKStore(value[0]), NodeToSKStore(value[1]))`. -/
def writeEntries (env : Env) (writer : SKWRITER) : List JsValue → State → State
  | [], st => st
  | value :: rest, st =>
    writeEntries env writer rest
      (st.emit (Event.writerSet writer (env.NodeToSKStore (value.GetIndex 0))
        (env.NodeToSKStore (value.GetIndex 1))))

/-! ## The callbacks of the store -/

/-- Source: `SKIP_SKStore_applyMapFun`.  The three early returns are the three
branches that end in `ThrowException`; the two lambdas handed to
`SKTryCatch` are the success and the failure callback. -/
def SKIP_SKStore_applyMapFun (env : Env) (mapperId : Nat) (ctx : SKCONTEXT)
    (writer : SKWRITER) (key : CJSON) (it : SKITERATOR) (st : State) : State :=
  match GetHandle st mapperId with
  | none => ThrowException (Exception.Error "Unable to retrieve EHandle.map function.") st
  | some mapper_ =>
    if !mapper_.IsObject then
      ThrowException (Exception.Error "Invalid EHandle.map mapper object.") st
    else
      let mapper := mapper_
      match mapper.Get "mapElement" with
      | JsValue.function mapElement =>
        let (current, st1) := SwitchContext ctx st
        let jsIt := JsValue.iterator it
        let jsKey := env.SKStoreToNode key
        (SKTryCatch env mapElement mapper [jsKey, jsIt]
          (fun jsResult s =>
            let s1 := RestoreContext current s
            let jsArr := ArrayFrom jsResult
            (nullptr, writeEntries env writer jsArr s1))
          (fun s => RestoreContext current s)
          st1).2
      | _ =>
        ThrowException (Exception.TypeError
          "Invalid EHandle.map mapper object. (mapElement method not defined)") st

/-- Source: `SKIP_SKStore_applyAccumulate`. -/
def SKIP_SKStore_applyAccumulate (env : Env) (accumulateId : Nat) (acc : CJSON)
    (value : CJSON) (st : State) : CJSON × State :=
  match GetHandle st accumulateId with
  | none =>
    (nullptr, ThrowException (Exception.Error "Unable to retrieve accumulate function.") st)
  | some accumulator_ =>
    if !accumulator_.IsObject then
      (nullptr, ThrowException (Exception.Error "Invalid accumulator.") st)
    else
      let accumulator := accumulator_
      match accumulator.Get "accumulate" with
      | JsValue.function accumulate =>
        let jsAcc := env.SKStoreToNode acc
        let jsValue := env.SKStoreToNode value
        SKTryCatch env accumulate accumulator [jsAcc, jsValue]
          (fun jsResult s => (env.NodeToSKStore jsResult, s))
          (fun s => s)
          st
      | _ => (nullptr, ThrowException (Exception.Error "Invalid accumulator.") st)

/-- Source: `SKIP_SKStore_applyDismiss`. -/
def SKIP_SKStore_applyDismiss (env : Env) (dismissId : Nat) (acc : CJSON)
    (value : CJSON) (st : State) : CJSON × State :=
  match GetHandle st dismissId with
  | none =>
    (nullptr, ThrowException (Exception.Error "Unable to retrieve dismiss function.") st)
  | some accumulator_ =>
    if !accumulator_.IsObject then
      (nullptr, ThrowException (Exception.Error "Invalid accumulator.") st)
    else
      let accumulator := accumulator_
      match accumulator.Get "dismiss" with
      | JsValue.function dismiss =>
        let jsAcc := env.SKStoreToNode acc
        let jsValue := env.SKStoreToNode value
        SKTryCatch env dismiss accumulator [jsAcc, jsValue]
          (fun jsResult s =>
            if jsResult.IsNull || jsResult.IsUndefined then (nullptr, s)
            else (env.NodeToSKStore jsResult, s))
          (fun s => s)
          st
      | _ => (nullptr, ThrowException (Exception.Error "Invalid accumulator.") st)

/-- Source: `SKIP_SKStore_applyConvertToRowFun`. -/
def SKIP_SKStore_applyConvertToRowFun (env : Env) (convId : Nat) (key : CJSON)
    (it : SKITERATOR) (st : State) : CJSON × State :=
  match GetHandle st convId with
  | none =>
    (nullptr, ThrowException (Exception.Error "Unable to retrieve convertion function.") st)
  | some mapper_ =>
    if !mapper_.IsObject then
      (nullptr, ThrowException (Exception.Error "Invalid EHandle.map mapper object.") st)
    else
      let mapper := mapper_
      match mapper.Get "mapElement" with
      | JsValue.function mapElement =>
        let jsIt := JsValue.iterator it
        let jsKey := env.SKStoreToNode key
        SKTryCatch env mapElement mapper [jsKey, jsIt]
          (fun jsResult s => (env.NodeToSKStore jsResult, s))
          (fun s => s)
          st
      | _ =>
        (nullptr, ThrowException (Exception.TypeError
          "Invalid EHandle.map mapper object. (mapElement method not defined)") st)

/-! ## Sample environment -/

/-- A codec for the examples: numbers and strings get distinct non-null
codes, `null`/`undefined` the code 1, everything else the code 2. -/
def sampleEncode : JsValue → CJSON
  | JsValue.number n => 10 + 2 * n.natAbs
  | JsValue.string s => 11 + 2 * s.length
  | JsValue.null => 1
  | JsValue.undefined => 1
  | _ => 2

/-- The decoder of the examples: the null pointer reads as `null`, and the
code `10 + 2 * n` of `sampleEncode` as the number `n`. -/
def sampleDecode (c : CJSON) : JsValue :=
  if c = 0 then JsValue.null else JsValue.number (((c : Int) - 10) / 2)

/-- A mapper check for the examples.  The calls of the source pass `0, false`
(`map`: the mapper is the first argument), `1, true` (`mapReduce`: the mapper
is followed by the accumulator) and `1, false` (`mapTo`: the mapper follows
the table), so the mapper is looked for at position 0 when the flag is set
and at position `extra` otherwise; it has to be an object whose `mapElement`
is a function. -/
def sampleCheckMapper (args : List JsValue) (_fnnames : List String) (name : String)
    (extra : Nat) (flag : Bool) : Except JsValue JsValue :=
  let mapper := argAt args (if flag then 0 else extra)
  if mapper.IsObject && (mapper.Get "mapElement").IsFunction then
    Except.ok mapper
  else
    Except.error (Exception.TypeError (name ++ ": invalid mapper"))

/-- An environment for the examples, over the user functions `code`: the
store answers `ksuid` with as many letters `k` as there were effects plus
one, every read with code 16 (the number 3), and every declaration with a
name built from the name it was given. -/
def sampleEnv (code : Nat → JsValue → List JsValue → Script) : Env where
  code := code
  NodeToSKStore := sampleEncode
  SKStoreToNode := sampleDecode
  CheckMapper := sampleCheckMapper
  unwrapTable := fun _ => "table"
  SKIP_SKStore_ksuid := fun t => String.mk (List.replicate (t.length + 1) 'k')
  SKIP_SKStore_get := fun _ _ _ _ => 16
  SKIP_SKStore_maybeGet := fun _ _ _ _ => 16
  SKIP_SKStore_size := fun _ _ _ => 1
  SKIP_SKStore_map := fun _ _ _ name _ => "map-" ++ name
  SKIP_SKStore_mapReduce := fun _ _ _ name _ _ _ => "reduce-" ++ name

/-- User functions that do nothing: every function returns `undefined`. -/
def noCode : Nat → JsValue → List JsValue → Script :=
  fun _ _ _ => Script.ret JsValue.undefined

/-- User functions for the examples.  Function 0 is a mapper that reads the
collection `other` at its key and fans out to two output keys; function 1
returns the number 0; function 2 returns `null`; function 3 throws;
function 4 returns the empty string; function 5 returns the empty array;
every other function returns `undefined`. -/
def sampleCode (fn : Nat) (_recv : JsValue) (argv : List JsValue) : Script :=
  match fn with
  | 0 =>
    Script.invoke Method.get (EHandle.mk "other") [argAt argv 0] (fun c =>
      match c with
      | Completion.returned v =>
        Script.ret (JsValue.array
          [JsValue.array [JsValue.number 1, v],
           JsValue.array [JsValue.string "k", JsValue.number 5]])
      | Completion.threw e => Script.raise e)
  | 1 => Script.ret (JsValue.number 0)
  | 2 => Script.ret JsValue.null
  | 3 => Script.raise (JsValue.string "boom")
  | 4 => Script.ret (JsValue.string "")
  | 5 => Script.ret (JsValue.array [])
  | _ => Script.ret JsValue.undefined

/-- A registry for the examples: identity 0 is a mapper whose `mapElement` is
function 0, identity 1 an accumulator whose `accumulate` and `dismiss` are
function 1, identity 2 an accumulator whose `dismiss` returns `null`,
identity 3 a mapper and accumulator whose functions throw, identity 4 an
accumulator without `dismiss`, identity 5 a number, identity 6 an
accumulator whose functions return the empty string, identity 7 a mapper
that returns the empty array. -/
def sampleHandles : List JsValue :=
  [ JsValue.object [("mapElement", JsValue.function 0)],
    JsValue.object [("accumulate", JsValue.function 1), ("dismiss", JsValue.function 1),
      ("default", JsValue.number 0)],
    JsValue.object [("accumulate", JsValue.function 1), ("dismiss", JsValue.function 2)],
    JsValue.object [("mapElement", JsValue.function 3), ("accumulate", JsValue.function 3),
      ("dismiss", JsValue.function 3)],
    JsValue.object [("accumulate", JsValue.function 1)],
    JsValue.number 7,
    JsValue.object [("accumulate", JsValue.function 4), ("dismiss", JsValue.function 4)],
    JsValue.object [("mapElement", JsValue.function 5)] ]

/-- A state for the examples: no context is active, the registry is
`sampleHandles`, nothing has happened yet (empty trace, no marker stamps). -/
def sampleState : State := State.mk 0 sampleHandles [] []

/-! ## Reading the trace -/

/-- The event is a write to a writer (`SKIP_SKStore_writerSet`). -/
def Event.isWrite : Event → Bool
  | Event.writerSet _ _ _ => true
  | _ => false

/-- The event is the call of a user function. -/
def Event.isCall : Event → Bool
  | Event.call _ _ _ => true
  | _ => false

/-- The event is a closure failure reported to the store. -/
def Event.isClosureError : Event → Bool
  | Event.closureError _ => true
  | _ => false

/-- The event is a call of one of the declaration functions of the store:
`SKIP_SKStore_map`, `SKIP_SKStore_mapReduce` or `SKIP_SKStore_toSkdb`. -/
def Event.isDeclaration : Event → Bool
  | Event.map _ _ _ _ => true
  | Event.mapReduce _ _ _ _ _ _ => true
  | Event.toSkdb _ _ _ _ => true
  | _ => false

/-- The event is `ThrowException` of the context error. -/
def Event.isContextError : Event → Bool
  | Event.throwException (JsValue.error ErrorKind.TypeError msg) =>
    msg == "Get cannot be called outside of a SKStore function."
  | _ => false

/-- The context a store function was called with, for the store functions
that take one. -/
def Event.storeContext : Event → Option SKCONTEXT
  | Event.get ctx _ _ => some ctx
  | Event.maybeGet ctx _ _ => some ctx
  | Event.size ctx _ => some ctx
  | Event.map ctx _ _ _ => some ctx
  | Event.mapReduce ctx _ _ _ _ _ => some ctx
  | Event.toSkdb ctx _ _ _ => some ctx
  | _ => none

/-- The writes of a trace, in order. -/
def writesOf (t : List Event) : List Event := t.filter Event.isWrite

/-- What an `EHandle` method may add to the trace when the context marker is
`ctx`: no write, no call of a user function, no closure failure; store calls
carry `ctx`; the context error only when `ctx` is `nullptr`. -/
def Event.fromMethod (ctx : SKCONTEXT) (e : Event) : Bool :=
  !e.isWrite && !e.isCall && !e.isClosureError &&
  (e.storeContext == none || e.storeContext == some ctx) &&
  (ctx == nullptr || !e.isContextError)

/-- The state `st'` comes from `st` by effects of `EHandle` methods only: the
context marker is the same, the trace grew by events that
`Event.fromMethod` allows, and the registry only grew. -/
def State.methodSteps (st st' : State) : Prop :=
  st'.context = st.context ∧
  (∃ new, st'.trace = st.trace ++ new ∧ ∀ e ∈ new, Event.fromMethod st.context e = true) ∧
  (∃ hs, st'.handles = st.handles ++ hs)

/-- The run of the `mapElement` closure inside `SKIP_SKStore_applyMapFun`:
the state it starts in is the state after `SwitchContext(ctx)` and after the
call was recorded; the arguments are the decoded key and the iterator
object.  Used to speak about what the closure did. -/
def runMapElement (env : Env) (mapElement : Nat) (mapper : JsValue) (ctx : SKCONTEXT)
    (key : CJSON) (it : SKITERATOR) (st : State) : Completion × State :=
  callFunction env mapElement mapper [env.SKStoreToNode key, JsValue.iterator it]
    (SwitchContext ctx st).2

/-- The JavaScript array `[outKey, outValue]`. -/
def pairToJs (p : JsValue × JsValue) : JsValue := JsValue.array [p.1, p.2]

/-- The write `SKIP_SKStore_writerSet(writer, encode(outKey), encode(outValue))`. -/
def pairWrite (env : Env) (writer : SKWRITER) (p : JsValue × JsValue) : Event :=
  Event.writerSet writer (env.NodeToSKStore p.1) (env.NodeToSKStore p.2)

/-- The declaration-time validation of the source rejects the call: for
`map` the mapper check fails; for `mapReduce` the mapper check fails, or the
second argument is not an object, or it is not an accumulator in the sense
of the source test (neither `accumulate` nor `dismiss` is a function); for
`mapTo` the mapper check fails, or the first argument is neither a string
nor an object.  The reading methods declare nothing. -/
def rejectedByValidation (env : Env) (m : Method) (args : List JsValue) : Prop :=
  match m with
  | Method.map =>
    ∃ e, env.CheckMapper args ["mapElement"] "EHandle.map" 0 false = Except.error e
  | Method.mapReduce =>
    (∃ e, env.CheckMapper args ["mapElement"] "EHandle.mapReduce" 1 true = Except.error e) ∨
    (argAt args 1).IsObject = false ∨
    (((argAt args 1).Get "accumulate").IsFunction = false ∧
      ((argAt args 1).Get "dismiss").IsFunction = false)
  | Method.mapTo =>
    (∃ e, env.CheckMapper args ["mapElement"] "EHandle.mapTo" 1 false = Except.error e) ∨
    ((argAt args 0).IsString = false ∧ (argAt args 0).IsObject = false)
  | _ => False

/-- The state `st'` comes from `st` by effects that are not writes and that
all happened under the marker of `st`, which is still the marker of `st'`:
the trace grew by events that are not writes, and every one of them is
stamped with that marker. -/
def State.stampedSteps (st st' : State) : Prop :=
  st'.context = st.context ∧
  ∃ new, st'.trace = st.trace ++ new ∧
    st'.markers = st.markers ++ List.replicate new.length st.context ∧
    ∀ e ∈ new, e.isWrite = false

/-- The closure identity `id` does not resolve to an object with a function
under the name `method`: it is not in the registry, or what it resolves to
is not an object, or the property is not a function. -/
def badIdentity (st : State) (id : Nat) (method : String) : Prop :=
  GetHandle st id = none ∨
  ∃ v, GetHandle st id = some v ∧ (v.IsObject = false ∨ (v.Get method).IsFunction = false)

/-! ## The propagation engine

The engine that keeps a derived collection up to date lives behind
`SKIP_SKStore_map`, in the store; the file only declares the entry points.
The definitions of this section follow the spec (3, 4.1, 4.2, 4.4). -/

namespace engine

/-- Modelled from the spec: the eager collection of the store (4.1) is not in
the file.  A mapping from key to an ordered sequence of values; `keys` lists
the keys ever written, in the order of their first write; `changed` is the
change-set of the current propagation cycle. -/
structure Eager (K V : Type) where
  keys : List K
  values : K → List V
  changed : List K

/-- Modelled from the spec: the empty eager collection (the store side is not
in the file). -/
def Eager.empty (K V : Type) : Eager K V :=
  { keys := [], values := fun _ => [], changed := [] }

/-- Modelled from the spec: `write(key, value)` of 4.1, not in the file: the
value is added under the key and the key is recorded as changed. -/
def Eager.write {K V : Type} [DecidableEq K] (c : Eager K V) (k : K) (v : V) : Eager K V :=
  { keys := if k ∈ c.keys then c.keys else c.keys ++ [k],
    values := Function.update c.values k (c.values k ++ [v]),
    changed := c.changed ++ [k] }

/-- Modelled from the spec: retraction of `(key, value)` of 4.1, not in the
file: one occurrence of the value is removed from under the key and the key
is recorded as changed. -/
def Eager.retract {K V : Type} [DecidableEq K] [DecidableEq V] (c : Eager K V) (k : K)
    (v : V) : Eager K V :=
  { keys := c.keys,
    values := Function.update c.values k ((c.values k).erase v),
    changed := c.changed ++ [k] }

/-- Modelled from the spec: evaluation of a transform node for one key (4.2,
steps 1 and 2), not in the file: the current values of the key are fetched
and the closure is invoked once with the key and these values; it returns
the complete sequence of output pairs for that key.  A key that holds no
value is not part of the upstream state and yields no pair.  The closure is
a pure, total function of the key and its values, as 4.2 expects; closures
that fail are outside of this definition. -/
def evalKey {K V K2 V2 : Type} (closure : K → List V → List (K2 × V2)) (up : Eager K V)
    (k : K) : List (K2 × V2) :=
  match up.values k with
  | [] => []
  | v :: vs => closure k (v :: vs)

/-- Modelled from the spec: a derived collection declared by `map` (3, 4.2),
not in the file: the upstream collection, and for each input key the pairs
the node produced for it at its last evaluation. -/
structure Derived (K V K2 V2 : Type) where
  upstream : Eager K V
  produced : K → List (K2 × V2)

/-- Modelled from the spec: declaration over an empty upstream.  No work
happens at declaration time. -/
def Derived.init (K V K2 V2 : Type) : Derived K V K2 V2 :=
  { upstream := Eager.empty K V, produced := fun _ => [] }

/-- Modelled from the spec: the replace of 4.2, step 3, not in the file: the
pairs the node produced before for this input key are retracted and the
newly produced pairs are written. -/
def Derived.reevaluate {K V K2 V2 : Type} [DecidableEq K]
    (closure : K → List V → List (K2 × V2)) (up : Eager K V)
    (produced : K → List (K2 × V2)) (k : K) : K → List (K2 × V2) :=
  Function.update produced k (evalKey closure up k)

/-- Modelled from the spec: one propagation cycle (4.4), not in the file:
the changed keys are collected, each is re-evaluated once (several changes
to one key collapse into one re-evaluation) against the upstream state as
it is now, and the change-set is empty afterwards. -/
def Derived.propagate {K V K2 V2 : Type} [DecidableEq K]
    (closure : K → List V → List (K2 × V2)) (d : Derived K V K2 V2) : Derived K V K2 V2 :=
  { upstream := { d.upstream with changed := [] },
    produced := d.upstream.changed.dedup.foldl
      (Derived.reevaluate closure d.upstream) d.produced }

/-- The operations a client and the scheduler perform on the upstream of a
derived collection. -/
inductive Op (K V : Type) where
  | write (k : K) (v : V)
  | retract (k : K) (v : V)
  | propagate

/-- Modelled from the spec: the effect of one operation (4.1, 4.4); the store
side is not in the file. -/
def Derived.step {K V K2 V2 : Type} [DecidableEq K] [DecidableEq V]
    (closure : K → List V → List (K2 × V2)) (d : Derived K V K2 V2) :
    Op K V → Derived K V K2 V2
  | Op.write k v => { d with upstream := d.upstream.write k v }
  | Op.retract k v => { d with upstream := d.upstream.retract k v }
  | Op.propagate => d.propagate closure

/-- The state of a derived collection after a sequence of operations,
starting from the declaration over an empty upstream. -/
def Derived.after {K V K2 V2 : Type} [DecidableEq K] [DecidableEq V]
    (closure : K → List V → List (K2 × V2)) (ops : List (Op K V)) : Derived K V K2 V2 :=
  ops.foldl (Derived.step closure) (Derived.init K V K2 V2)

/-- The contents of the derived collection: the pairs produced for the
upstream keys, key by key. -/
def Derived.contents {K V K2 V2 : Type} (d : Derived K V K2 V2) : List (K2 × V2) :=
  d.upstream.keys.flatMap d.produced

/-- The values under one output key of the derived collection. -/
def Derived.get {K V K2 V2 : Type} [DecidableEq K2] (d : Derived K V K2 V2) (k2 : K2) :
    List V2 :=
  (d.contents.filter (fun p => p.1 = k2)).map Prod.snd

/-- The transform evaluated from scratch over the full upstream state: the
closure is run on every key of the upstream collection. -/
def fromScratch {K V K2 V2 : Type} (closure : K → List V → List (K2 × V2))
    (up : Eager K V) : List (K2 × V2) :=
  up.keys.flatMap (evalKey closure up)

/-- The closure of the scenario of the spec (8): every value is emitted under
its length. -/
def byLength (_k : Nat) (values : List String) : List (Nat × String) :=
  values.map (fun v => (v.length, v))

end engine

/-! ## Methods called outside of an evaluation context -/

/-- The six methods without a context, in the form the later proofs use. -/
theorem methods_null_context (env : Env) (m : Method) (self : EHandle)
    (args : List JsValue) (st : State) (hctx : st.context = nullptr) :
    callMethod env m self args st =
      (Completion.threw contextError, ThrowException contextError st) := by
  cases m <;>
    simp [callMethod, EHandle.Get, EHandle.MaybeGet, EHandle.Size, EHandle.Map,
      EHandle.MapReduce, EHandle.MapTo, GetContext, hctx]

/-- C1: each of `get`, `maybeGet`, `size`, `map`, `mapReduce` and `mapTo`, called
on any handle with any argument list while the current context is `nullptr`,
throws the context error; the only effect is that `ThrowException`, so no
store function is called, and the registry of closure identities and the
context marker are as before. -/
theorem EHandle_methods_without_context (env : Env) (m : Method) (self : EHandle)
    (args : List JsValue) (st : State) (hctx : GetContext st = nullptr) :
    (callMethod env m self args st).1 = Completion.threw contextError ∧
    (callMethod env m self args st).2.trace = st.trace ++ [Event.throwException contextError] ∧
    (callMethod env m self args st).2.handles = st.handles ∧
    (callMethod env m self args st).2.context = st.context := by
  rw [methods_null_context env m self args st hctx]
  exact ⟨rfl, rfl, rfl, rfl⟩

/-- C1 at a concrete call: `mapReduce` with a well-formed mapper and
accumulator, in a state without context. -/
theorem EHandle_methods_without_context_witness :
    GetContext (State.mk 0 [] [] []) = nullptr ∧
    (callMethod (sampleEnv noCode) Method.mapReduce (EHandle.mk "input")
      [JsValue.object [("mapElement", JsValue.function 0)],
       JsValue.object [("accumulate", JsValue.function 1), ("dismiss", JsValue.function 2)]]
      (State.mk 0 [] [] [])).1 = Completion.threw contextError ∧
    (callMethod (sampleEnv noCode) Method.mapReduce (EHandle.mk "input")
      [JsValue.object [("mapElement", JsValue.function 0)],
       JsValue.object [("accumulate", JsValue.function 1), ("dismiss", JsValue.function 2)]]
      (State.mk 0 [] [] [])).2.handles = [] :=
  ⟨rfl,
    (EHandle_methods_without_context (sampleEnv noCode) Method.mapReduce (EHandle.mk "input")
      _ (State.mk 0 [] [] []) rfl).1,
    (EHandle_methods_without_context (sampleEnv noCode) Method.mapReduce (EHandle.mk "input")
      _ (State.mk 0 [] [] []) rfl).2.2.1⟩

/-! ## The result of `dismiss` -/

/-- C2: for a registered accumulator whose `dismiss` is a function, and for
every accumulator state and value, `SKIP_SKStore_applyDismiss` returns
`nullptr` exactly when the `dismiss` closure throws or returns `null` or
`undefined`; for every other returned value it returns the encoding of that
value, which is present whenever the codec encodes that value as a non-null
pointer (zero-equivalent values such as 0 and the empty string are not
special). -/
theorem applyDismiss_absent_iff (env : Env) (dismissId : Nat) (acc value : CJSON)
    (st : State) (accumulator : JsValue) (dismiss : Nat)
    (hreg : GetHandle st dismissId = some accumulator)
    (hobj : accumulator.IsObject = true)
    (hfn : accumulator.Get "dismiss" = JsValue.function dismiss)
    (hcodec : ∀ v, (callFunction env dismiss accumulator
        [env.SKStoreToNode acc, env.SKStoreToNode value] st).1 = Completion.returned v →
      v.IsNull = false → v.IsUndefined = false → env.NodeToSKStore v ≠ nullptr) :
    ((SKIP_SKStore_applyDismiss env dismissId acc value st).1 = nullptr ↔
      ((∃ e, (callFunction env dismiss accumulator
          [env.SKStoreToNode acc, env.SKStoreToNode value] st).1 = Completion.threw e) ∨
       (∃ v, (callFunction env dismiss accumulator
          [env.SKStoreToNode acc, env.SKStoreToNode value] st).1 = Completion.returned v ∧
          (v.IsNull = true ∨ v.IsUndefined = true)))) ∧
    (∀ v, (callFunction env dismiss accumulator
        [env.SKStoreToNode acc, env.SKStoreToNode value] st).1 = Completion.returned v →
      v.IsNull = false → v.IsUndefined = false →
      (SKIP_SKStore_applyDismiss env dismissId acc value st).1 = env.NodeToSKStore v) := by
  simp only [SKIP_SKStore_applyDismiss, hreg, hobj, hfn, SKTryCatch, Bool.not_true,
    Bool.false_eq_true, if_false]
  generalize callFunction env dismiss accumulator
      [env.SKStoreToNode acc, env.SKStoreToNode value] st = out at hcodec ⊢
  obtain ⟨c, st1⟩ := out
  cases c with
  | threw e => simp
  | returned v =>
    by_cases hn : v.IsNull = true
    · simp [hn]
    · by_cases hu : v.IsUndefined = true
      · simp [hu]
      · have h := hcodec v rfl (by simpa using hn) (by simpa using hu)
        simp [hn, hu, h]

/-- C2 at a concrete call: the accumulator with identity 1 dismisses to the
number 0, and the store receives the encoding of 0, not `nullptr`. -/
theorem applyDismiss_absent_iff_witness :
    (SKIP_SKStore_applyDismiss (sampleEnv sampleCode) 1 12 14 sampleState).1
      = sampleEncode (JsValue.number 0) ∧
    (SKIP_SKStore_applyDismiss (sampleEnv sampleCode) 1 12 14 sampleState).1 ≠ nullptr :=
  ⟨(applyDismiss_absent_iff (sampleEnv sampleCode) 1 12 14 sampleState
      (JsValue.object [("accumulate", JsValue.function 1), ("dismiss", JsValue.function 1),
        ("default", JsValue.number 0)]) 1 rfl rfl rfl
      (fun v _ _ _ => by cases v <;> simp [sampleEnv, sampleEncode, nullptr])).2
      (JsValue.number 0) rfl rfl rfl,
    by decide⟩

/-! ## Validation of the accumulator in `mapReduce` -/

/-- C3, the code at the failing input: with an active context and a valid
mapper, `mapReduce` is given an accumulator that has `accumulate` but no
`dismiss`.  The test `!accumulate->IsFunction() && !dismiss->IsFunction()`
lets it pass: no exception is thrown, mapper and accumulator are
registered, the store declaration is called and a handle is returned. -/
theorem MapReduce_accepts_accumulator_without_dismiss :
    ((JsValue.object [("accumulate", JsValue.function 1),
        ("default", JsValue.number 0)]).Get "dismiss").IsFunction = false ∧
    (EHandle.MapReduce (sampleEnv noCode) (EHandle.mk "input")
      [JsValue.object [("mapElement", JsValue.function 0)],
       JsValue.object [("accumulate", JsValue.function 1), ("default", JsValue.number 0)]]
      (State.mk 5 [] [] [])).1 = Completion.returned (JsValue.ehandle "reduce-k") ∧
    (EHandle.MapReduce (sampleEnv noCode) (EHandle.mk "input")
      [JsValue.object [("mapElement", JsValue.function 0)],
       JsValue.object [("accumulate", JsValue.function 1), ("default", JsValue.number 0)]]
      (State.mk 5 [] [] [])).2.handles =
        [JsValue.object [("mapElement", JsValue.function 0)],
         JsValue.object [("accumulate", JsValue.function 1), ("default", JsValue.number 0)]] ∧
    (EHandle.MapReduce (sampleEnv noCode) (EHandle.mk "input")
      [JsValue.object [("mapElement", JsValue.function 0)],
       JsValue.object [("accumulate", JsValue.function 1), ("default", JsValue.number 0)]]
      (State.mk 5 [] [] [])).2.trace =
        [Event.ksuid, Event.mapReduce 5 "input" "k" 0 1 10] := by
  refine ⟨rfl, ?_, ?_, ?_⟩ <;> rfl

/-! ## What user functions can do to the state -/

theorem State.methodSteps_refl (st : State) : State.methodSteps st st :=
  ⟨rfl, ⟨[], by simp, by simp⟩, ⟨[], by simp⟩⟩

theorem State.methodSteps_trans {a b c : State} (hab : State.methodSteps a b)
    (hbc : State.methodSteps b c) : State.methodSteps a c := by
  obtain ⟨hc1, ⟨n1, ht1, he1⟩, ⟨h1, hh1⟩⟩ := hab
  obtain ⟨hc2, ⟨n2, ht2, he2⟩, ⟨h2, hh2⟩⟩ := hbc
  refine ⟨hc2.trans hc1, ⟨n1 ++ n2, by rw [ht2, ht1, List.append_assoc], ?_⟩,
    ⟨h1 ++ h2, by rw [hh2, hh1, List.append_assoc]⟩⟩
  intro e he
  rcases List.mem_append.mp he with h | h
  · exact he1 e h
  · rw [← hc1]; exact he2 e h

/-- Every `EHandle` method leaves the context marker alone, adds to the trace
only what `Event.fromMethod` allows, and only adds to the registry. -/
theorem callMethod_methodSteps (env : Env) (m : Method) (self : EHandle)
    (args : List JsValue) (st : State) :
    State.methodSteps st (callMethod env m self args st).2 := by
  by_cases hctx : st.context = nullptr
  · rw [methods_null_context env m self args st hctx]
    refine ⟨rfl, ⟨[Event.throwException contextError], rfl, ?_⟩,
      ⟨[], by simp [ThrowException, State.emit]⟩⟩
    intro e he
    simp only [List.mem_singleton] at he
    subst he
    simp [Event.fromMethod, Event.isWrite, Event.isCall, Event.isClosureError,
      Event.storeContext, hctx]
  · cases m
    all_goals
      simp only [callMethod, EHandle.Get, EHandle.MaybeGet, EHandle.Size, EHandle.Map,
        EHandle.MapReduce, EHandle.MapTo, GetContext, hctx, if_false]
    all_goals repeat' split
    all_goals
      simp [State.methodSteps, ThrowException, State.emit, CreateHandle, EHandle.Create,
        Event.fromMethod, Event.isWrite, Event.isCall, Event.isClosureError,
        Event.storeContext, Event.isContextError, Exception.TypeError, hctx]

/-- A user function leaves the context marker alone, adds to the trace only
what `EHandle` methods add, and only adds to the registry. -/
theorem Script.run_methodSteps (env : Env) (s : Script) (st : State) :
    State.methodSteps st (Script.run env s st).2 := by
  induction s generalizing st with
  | ret v => exact State.methodSteps_refl st
  | raise e => exact State.methodSteps_refl st
  | invoke m self args k ih =>
    simp only [Script.run]
    exact State.methodSteps_trans (callMethod_methodSteps env m self args st) (ih _ _)

theorem writesOf_append (t new : List Event) :
    writesOf (t ++ new) = writesOf t ++ writesOf new := by
  simp [writesOf]

theorem writesOf_fromMethod (ctx : SKCONTEXT) (new : List Event)
    (h : ∀ e ∈ new, Event.fromMethod ctx e = true) : writesOf new = [] := by
  simp only [writesOf, List.filter_eq_nil_iff]
  intro e he
  have := h e he
  simp only [Event.fromMethod, Bool.and_eq_true, Bool.not_eq_true'] at this
  simp [this.1.1.1.1]

theorem fromMethod_not_write (ctx : SKCONTEXT) (e : Event)
    (h : Event.fromMethod ctx e = true) : e.isWrite = false := by
  simp only [Event.fromMethod, Bool.and_eq_true, Bool.not_eq_true'] at h
  exact h.1.1.1.1

/-- A user function writes nothing. -/
theorem writesOf_run (env : Env) (s : Script) (st : State) :
    writesOf (Script.run env s st).2.trace = writesOf st.trace := by
  obtain ⟨_, ⟨new, ht, he⟩, _⟩ := Script.run_methodSteps env s st
  rw [ht, writesOf_append, writesOf_fromMethod _ new he, List.append_nil]

/-- The write loop: one `writerSet` per entry, in order, after what was in the
trace; context marker and registry are not touched. -/
theorem writeEntries_spec (env : Env) (writer : SKWRITER) (entries : List JsValue)
    (st : State) :
    (writeEntries env writer entries st).trace =
      st.trace ++ entries.map (fun value =>
        Event.writerSet writer (env.NodeToSKStore (value.GetIndex 0))
          (env.NodeToSKStore (value.GetIndex 1))) ∧
    (writeEntries env writer entries st).context = st.context ∧
    (writeEntries env writer entries st).handles = st.handles := by
  induction entries generalizing st with
  | nil => simp [writeEntries]
  | cons value rest ih =>
    simp only [writeEntries]
    obtain ⟨h1, h2, h3⟩ := ih (st.emit (Event.writerSet writer
      (env.NodeToSKStore (value.GetIndex 0)) (env.NodeToSKStore (value.GetIndex 1))))
    refine ⟨?_, ?_, ?_⟩
    · rw [h1]; simp [State.emit]
    · rw [h2]; rfl
    · rw [h3]; rfl

theorem writesOf_pairWrite (env : Env) (writer : SKWRITER) (pairs : List (JsValue × JsValue)) :
    writesOf (pairs.map (pairWrite env writer)) = pairs.map (pairWrite env writer) := by
  simp only [writesOf, List.filter_eq_self]
  intro e he
  obtain ⟨p, _, rfl⟩ := List.mem_map.mp he
  rfl

/-- With a valid mapper, `SKIP_SKStore_applyMapFun` is the closure run followed
by the success or the failure callback. -/
theorem applyMapFun_eq (env : Env) (mapperId : Nat) (ctx : SKCONTEXT)
    (writer : SKWRITER) (key : CJSON) (it : SKITERATOR) (st : State)
    (mapper : JsValue) (mapElement : Nat)
    (hreg : GetHandle st mapperId = some mapper)
    (hobj : mapper.IsObject = true)
    (hfn : mapper.Get "mapElement" = JsValue.function mapElement) :
    SKIP_SKStore_applyMapFun env mapperId ctx writer key it st =
      match runMapElement env mapElement mapper ctx key it st with
      | (Completion.returned jsResult, st1) =>
        writeEntries env writer (ArrayFrom jsResult) (RestoreContext st.context st1)
      | (Completion.threw e, st1) =>
        (RestoreContext st.context st1).emit (Event.closureError e) := by
  simp only [SKIP_SKStore_applyMapFun, hreg, hobj, hfn, SKTryCatch, runMapElement,
    SwitchContext, Bool.not_true, Bool.false_eq_true, if_false]
  split <;> rename_i h <;> simp [h]

/-! ## The writes of `applyMapFun` -/

/-- C4: for a valid mapper, if `mapElement` returns a sequence of n pairs
`[outKey_i, outValue_i]`, `SKIP_SKStore_applyMapFun` appends, after everything
the closure did, exactly the n writes
`writerSet(writer, encode(outKey_i), encode(outValue_i))` in sequence order,
and these are all the writes of the call; the keys are those of the pairs,
whatever the input key, and no pair means no write. -/
theorem applyMapFun_writes_pairs (env : Env) (mapperId : Nat) (ctx : SKCONTEXT)
    (writer : SKWRITER) (key : CJSON) (it : SKITERATOR) (st : State)
    (mapper : JsValue) (mapElement : Nat) (pairs : List (JsValue × JsValue))
    (hreg : GetHandle st mapperId = some mapper)
    (hobj : mapper.IsObject = true)
    (hfn : mapper.Get "mapElement" = JsValue.function mapElement)
    (hret : (runMapElement env mapElement mapper ctx key it st).1 =
      Completion.returned (JsValue.array (pairs.map pairToJs))) :
    (SKIP_SKStore_applyMapFun env mapperId ctx writer key it st).trace =
      (runMapElement env mapElement mapper ctx key it st).2.trace ++
        pairs.map (pairWrite env writer) ∧
    writesOf (SKIP_SKStore_applyMapFun env mapperId ctx writer key it st).trace =
      writesOf st.trace ++ pairs.map (pairWrite env writer) ∧
    (writesOf (SKIP_SKStore_applyMapFun env mapperId ctx writer key it st).trace).length =
      (writesOf st.trace).length + pairs.length := by
  have hrun : writesOf (runMapElement env mapElement mapper ctx key it st).2.trace =
      writesOf st.trace := by
    rw [runMapElement, callFunction, writesOf_run]
    simp [SwitchContext, State.emit, writesOf, Event.isWrite]
  have htrace : (SKIP_SKStore_applyMapFun env mapperId ctx writer key it st).trace =
      (runMapElement env mapElement mapper ctx key it st).2.trace ++
        pairs.map (pairWrite env writer) := by
    rw [applyMapFun_eq env mapperId ctx writer key it st mapper mapElement hreg hobj hfn]
    generalize runMapElement env mapElement mapper ctx key it st = out at hret
    obtain ⟨c, st1⟩ := out
    simp only at hret
    subst hret
    simp only
    rw [(writeEntries_spec env writer _ _).1]
    simp [ArrayFrom, RestoreContext, pairToJs, pairWrite, JsValue.GetIndex, List.map_map,
      Function.comp_def]
  have hw : writesOf (SKIP_SKStore_applyMapFun env mapperId ctx writer key it st).trace =
      writesOf st.trace ++ pairs.map (pairWrite env writer) := by
    rw [htrace, writesOf_append, hrun, writesOf_pairWrite]
  exact ⟨htrace, hw, by rw [hw]; simp⟩

/-- C4 at a concrete call: the mapper with identity 0 is run for the key with
code 12 (the number 1), reads the number 3 from the store and fans out to
the output keys `1` and `"k"`; the two writes are issued in that order. -/
theorem applyMapFun_writes_pairs_witness :
    writesOf (SKIP_SKStore_applyMapFun (sampleEnv sampleCode) 0 5 9 12 3 sampleState).trace =
      [Event.writerSet 9 12 16, Event.writerSet 9 13 20] :=
  (applyMapFun_writes_pairs (sampleEnv sampleCode) 0 5 9 12 3 sampleState
    (JsValue.object [("mapElement", JsValue.function 0)]) 0
    [(JsValue.number 1, JsValue.number 3), (JsValue.string "k", JsValue.number 5)]
    rfl rfl rfl rfl).2.1

/-- C5: for a valid mapper, if the `mapElement` closure throws,
`SKIP_SKStore_applyMapFun` issues no `writerSet` at all: the trace is what the
closure did followed by the closure failure, and its writes are the writes
from before the call. -/
theorem applyMapFun_throw_no_write (env : Env) (mapperId : Nat) (ctx : SKCONTEXT)
    (writer : SKWRITER) (key : CJSON) (it : SKITERATOR) (st : State)
    (mapper : JsValue) (mapElement : Nat) (e : JsValue)
    (hreg : GetHandle st mapperId = some mapper)
    (hobj : mapper.IsObject = true)
    (hfn : mapper.Get "mapElement" = JsValue.function mapElement)
    (hthrow : (runMapElement env mapElement mapper ctx key it st).1 = Completion.threw e) :
    (SKIP_SKStore_applyMapFun env mapperId ctx writer key it st).trace =
      (runMapElement env mapElement mapper ctx key it st).2.trace ++
        [Event.closureError e] ∧
    writesOf (SKIP_SKStore_applyMapFun env mapperId ctx writer key it st).trace =
      writesOf st.trace ∧
    (∃ new, (SKIP_SKStore_applyMapFun env mapperId ctx writer key it st).trace =
      st.trace ++ new ∧ ∀ ev ∈ new, ev.isWrite = false) := by
  have hrun : writesOf (runMapElement env mapElement mapper ctx key it st).2.trace =
      writesOf st.trace := by
    rw [runMapElement, callFunction, writesOf_run]
    simp [SwitchContext, State.emit, writesOf, Event.isWrite]
  have htrace : (SKIP_SKStore_applyMapFun env mapperId ctx writer key it st).trace =
      (runMapElement env mapElement mapper ctx key it st).2.trace ++
        [Event.closureError e] := by
    rw [applyMapFun_eq env mapperId ctx writer key it st mapper mapElement hreg hobj hfn]
    generalize runMapElement env mapElement mapper ctx key it st = out at hthrow
    obtain ⟨c, st1⟩ := out
    simp only at hthrow
    subst hthrow
    simp [RestoreContext, State.emit]
  refine ⟨htrace, ?_, ?_⟩
  · rw [htrace, writesOf_append, hrun]
    simp [writesOf, Event.isWrite]
  · obtain ⟨_, ⟨new, ht, he⟩, _⟩ := Script.run_methodSteps env
      (env.code mapElement mapper [env.SKStoreToNode key, JsValue.iterator it])
      ((SwitchContext ctx st).2.emit
        (Event.call mapElement mapper [env.SKStoreToNode key, JsValue.iterator it]))
    refine ⟨[Event.call mapElement mapper [env.SKStoreToNode key, JsValue.iterator it]]
      ++ new ++ [Event.closureError e], ?_, ?_⟩
    · rw [htrace, runMapElement, callFunction, ht]
      simp [SwitchContext, State.emit]
    · intro ev hev
      simp only [List.mem_append, List.mem_singleton] at hev
      rcases hev with (h | h) | h
      · subst h; rfl
      · exact fromMethod_not_write _ _ (he ev h)
      · subst h; rfl

/-- C5 at a concrete call: the mapper with identity 3 throws; the trace holds
the call and the closure failure, and no write. -/
theorem applyMapFun_throw_no_write_witness :
    (SKIP_SKStore_applyMapFun (sampleEnv sampleCode) 3 5 9 12 3 sampleState).trace =
      [Event.call 3 (JsValue.object [("mapElement", JsValue.function 3),
          ("accumulate", JsValue.function 3), ("dismiss", JsValue.function 3)])
          [JsValue.number 1, JsValue.iterator 3],
        Event.closureError (JsValue.string "boom")] ∧
    writesOf (SKIP_SKStore_applyMapFun (sampleEnv sampleCode) 3 5 9 12 3 sampleState).trace
      = [] :=
  ⟨(applyMapFun_throw_no_write (sampleEnv sampleCode) 3 5 9 12 3 sampleState
      (JsValue.object [("mapElement", JsValue.function 3),
          ("accumulate", JsValue.function 3), ("dismiss", JsValue.function 3)]) 3
      (JsValue.string "boom") rfl rfl rfl rfl).1,
    (applyMapFun_throw_no_write (sampleEnv sampleCode) 3 5 9 12 3 sampleState
      (JsValue.object [("mapElement", JsValue.function 3),
          ("accumulate", JsValue.function 3), ("dismiss", JsValue.function 3)]) 3
      (JsValue.string "boom") rfl rfl rfl rfl).2.1⟩

/-! ## Declarations -/

/-- C6: a `map`, `mapReduce` or `mapTo` call that declaration-time validation
rejects ends with an exception, registers no closure identity (the registry
is as before, `CreateHandle` was not called) and does not call the
declaration function of the store (`SKIP_SKStore_map`,
`SKIP_SKStore_mapReduce`, `SKIP_SKStore_toSkdb`). -/
theorem rejected_declaration_registers_nothing (env : Env) (m : Method) (self : EHandle)
    (args : List JsValue) (st : State) (hrej : rejectedByValidation env m args) :
    (∃ e, (callMethod env m self args st).1 = Completion.threw e) ∧
    (callMethod env m self args st).2.handles = st.handles ∧
    (∃ new, (callMethod env m self args st).2.trace = st.trace ++ new ∧
      ∀ ev ∈ new, ev.isDeclaration = false) := by
  by_cases hctx : st.context = nullptr
  · rw [methods_null_context env m self args st hctx]
    refine ⟨⟨_, rfl⟩, rfl, ⟨[Event.throwException contextError], rfl, ?_⟩⟩
    intro ev hev
    simp only [List.mem_singleton] at hev
    subst hev
    rfl
  · cases m with
    | get => exact absurd hrej (by simp [rejectedByValidation])
    | maybeGet => exact absurd hrej (by simp [rejectedByValidation])
    | size => exact absurd hrej (by simp [rejectedByValidation])
    | map =>
      obtain ⟨e, he⟩ := hrej
      simp [callMethod, EHandle.Map, GetContext, hctx, he]
    | mapReduce =>
      simp only [callMethod, EHandle.MapReduce, GetContext, hctx, if_false]
      rcases hrej with ⟨e, he⟩ | hobj | ⟨ha, hd⟩
      · simp [he]
      · split
        · simp
        · simp [hobj, ThrowException, State.emit, Event.isDeclaration]
      · split
        · simp
        · split
          · simp [ThrowException, State.emit, Event.isDeclaration]
          · simp [ha, hd, ThrowException, State.emit, Event.isDeclaration]
    | mapTo =>
      simp only [callMethod, EHandle.MapTo, GetContext, hctx, if_false]
      rcases hrej with ⟨e, he⟩ | ⟨hs, ho⟩
      · simp [he]
      · split
        · simp
        · simp [hs, ho, ThrowException, State.emit, Event.isDeclaration]

/-- C6 at a concrete call: `mapReduce` with a number in the place of the
accumulator, in an active context. -/
theorem rejected_declaration_registers_nothing_witness :
    (callMethod (sampleEnv noCode) Method.mapReduce (EHandle.mk "input")
      [JsValue.object [("mapElement", JsValue.function 0)], JsValue.number 3]
      (State.mk 5 sampleHandles [] [])).2.handles = sampleHandles :=
  (rejected_declaration_registers_nothing (sampleEnv noCode) Method.mapReduce
    (EHandle.mk "input") [JsValue.object [("mapElement", JsValue.function 0)], JsValue.number 3]
    (State.mk 5 sampleHandles [] []) (Or.inr (Or.inl rfl))).2.1

/-- C10: for each of the four callbacks, if the closure identity does not
resolve in the registry, or resolves to a non-object, or the required method
(`mapElement`, `accumulate`, `dismiss`, `mapElement`) is not a function, the
only effect of the call is one `ThrowException`: no user function is called,
nothing is written, and the three value-returning callbacks return
`nullptr`.  If the identity resolves, the user function is called once and
the result is either its success value (written pair by pair for
`applyMapFun`, encoded for `applyAccumulate` and `applyConvertToRowFun`,
encoded or `nullptr` for `applyDismiss`) or a closure failure together with
`nullptr`. -/
theorem apply_callbacks_resolution (env : Env) (id : Nat) (st : State) :
    (badIdentity st id "mapElement" → ∀ ctx writer key it,
      ∃ e, SKIP_SKStore_applyMapFun env id ctx writer key it st = ThrowException e st) ∧
    (badIdentity st id "accumulate" → ∀ acc value,
      ∃ e, SKIP_SKStore_applyAccumulate env id acc value st =
        (nullptr, ThrowException e st)) ∧
    (badIdentity st id "dismiss" → ∀ acc value,
      ∃ e, SKIP_SKStore_applyDismiss env id acc value st = (nullptr, ThrowException e st)) ∧
    (badIdentity st id "mapElement" → ∀ key it,
      ∃ e, SKIP_SKStore_applyConvertToRowFun env id key it st =
        (nullptr, ThrowException e st)) ∧
    (∀ obj f, GetHandle st id = some obj → obj.IsObject = true →
      obj.Get "mapElement" = JsValue.function f → ∀ ctx writer key it,
      (∃ v, (runMapElement env f obj ctx key it st).1 = Completion.returned v ∧
        SKIP_SKStore_applyMapFun env id ctx writer key it st =
          writeEntries env writer (ArrayFrom v)
            (RestoreContext st.context (runMapElement env f obj ctx key it st).2)) ∨
      (∃ e, (runMapElement env f obj ctx key it st).1 = Completion.threw e ∧
        SKIP_SKStore_applyMapFun env id ctx writer key it st =
          (RestoreContext st.context (runMapElement env f obj ctx key it st).2).emit
            (Event.closureError e))) ∧
    (∀ obj f, GetHandle st id = some obj → obj.IsObject = true →
      obj.Get "accumulate" = JsValue.function f → ∀ acc value,
      (∃ v, (callFunction env f obj [env.SKStoreToNode acc, env.SKStoreToNode value] st).1 =
          Completion.returned v ∧
        SKIP_SKStore_applyAccumulate env id acc value st = (env.NodeToSKStore v,
          (callFunction env f obj [env.SKStoreToNode acc, env.SKStoreToNode value] st).2)) ∨
      (∃ e, (callFunction env f obj [env.SKStoreToNode acc, env.SKStoreToNode value] st).1 =
          Completion.threw e ∧
        SKIP_SKStore_applyAccumulate env id acc value st = (nullptr,
          (callFunction env f obj [env.SKStoreToNode acc, env.SKStoreToNode value] st).2.emit
            (Event.closureError e)))) ∧
    (∀ obj f, GetHandle st id = some obj → obj.IsObject = true →
      obj.Get "dismiss" = JsValue.function f → ∀ acc value,
      (∃ v, (callFunction env f obj [env.SKStoreToNode acc, env.SKStoreToNode value] st).1 =
          Completion.returned v ∧
        SKIP_SKStore_applyDismiss env id acc value st =
          (if v.IsNull || v.IsUndefined then nullptr else env.NodeToSKStore v,
          (callFunction env f obj [env.SKStoreToNode acc, env.SKStoreToNode value] st).2)) ∨
      (∃ e, (callFunction env f obj [env.SKStoreToNode acc, env.SKStoreToNode value] st).1 =
          Completion.threw e ∧
        SKIP_SKStore_applyDismiss env id acc value st = (nullptr,
          (callFunction env f obj [env.SKStoreToNode acc, env.SKStoreToNode value] st).2.emit
            (Event.closureError e)))) ∧
    (∀ obj f, GetHandle st id = some obj → obj.IsObject = true →
      obj.Get "mapElement" = JsValue.function f → ∀ key it,
      (∃ v, (callFunction env f obj [env.SKStoreToNode key, JsValue.iterator it] st).1 =
          Completion.returned v ∧
        SKIP_SKStore_applyConvertToRowFun env id key it st = (env.NodeToSKStore v,
          (callFunction env f obj [env.SKStoreToNode key, JsValue.iterator it] st).2)) ∨
      (∃ e, (callFunction env f obj [env.SKStoreToNode key, JsValue.iterator it] st).1 =
          Completion.threw e ∧
        SKIP_SKStore_applyConvertToRowFun env id key it st = (nullptr,
          (callFunction env f obj [env.SKStoreToNode key, JsValue.iterator it] st).2.emit
            (Event.closureError e)))) := by
  refine ⟨?_, ?_, ?_, ?_, ?_, ?_, ?_, ?_⟩
  · rintro (h | ⟨v, hv, h | h⟩) ctx writer key it
    · exact ⟨_, by simp only [SKIP_SKStore_applyMapFun, h]; rfl⟩
    · exact ⟨_, by simp [SKIP_SKStore_applyMapFun, hv, h]; rfl⟩
    · cases hobj : v.IsObject
      · exact ⟨_, by simp [SKIP_SKStore_applyMapFun, hv, hobj]; rfl⟩
      · refine ⟨Exception.TypeError
          "Invalid EHandle.map mapper object. (mapElement method not defined)", ?_⟩
        simp only [SKIP_SKStore_applyMapFun, hv, hobj, Bool.not_true, Bool.false_eq_true,
          if_false]
        split
        · rename_i heq; rw [heq] at h; simp [JsValue.IsFunction] at h
        · rfl
  · rintro (h | ⟨v, hv, h | h⟩) acc value
    · exact ⟨_, by simp only [SKIP_SKStore_applyAccumulate, h]; rfl⟩
    · exact ⟨_, by simp [SKIP_SKStore_applyAccumulate, hv, h]; rfl⟩
    · cases hobj : v.IsObject
      · exact ⟨_, by simp [SKIP_SKStore_applyAccumulate, hv, hobj]; rfl⟩
      · refine ⟨Exception.Error "Invalid accumulator.", ?_⟩
        simp only [SKIP_SKStore_applyAccumulate, hv, hobj, Bool.not_true, Bool.false_eq_true,
          if_false]
        split
        · rename_i heq; rw [heq] at h; simp [JsValue.IsFunction] at h
        · rfl
  · rintro (h | ⟨v, hv, h | h⟩) acc value
    · exact ⟨_, by simp only [SKIP_SKStore_applyDismiss, h]; rfl⟩
    · exact ⟨_, by simp [SKIP_SKStore_applyDismiss, hv, h]; rfl⟩
    · cases hobj : v.IsObject
      · exact ⟨_, by simp [SKIP_SKStore_applyDismiss, hv, hobj]; rfl⟩
      · refine ⟨Exception.Error "Invalid accumulator.", ?_⟩
        simp only [SKIP_SKStore_applyDismiss, hv, hobj, Bool.not_true, Bool.false_eq_true,
          if_false]
        split
        · rename_i heq; rw [heq] at h; simp [JsValue.IsFunction] at h
        · rfl
  · rintro (h | ⟨v, hv, h | h⟩) key it
    · exact ⟨_, by simp only [SKIP_SKStore_applyConvertToRowFun, h]; rfl⟩
    · exact ⟨_, by simp [SKIP_SKStore_applyConvertToRowFun, hv, h]; rfl⟩
    · cases hobj : v.IsObject
      · exact ⟨_, by simp [SKIP_SKStore_applyConvertToRowFun, hv, hobj]; rfl⟩
      · refine ⟨Exception.TypeError
          "Invalid EHandle.map mapper object. (mapElement method not defined)", ?_⟩
        simp only [SKIP_SKStore_applyConvertToRowFun, hv, hobj, Bool.not_true,
          Bool.false_eq_true, if_false]
        split
        · rename_i heq; rw [heq] at h; simp [JsValue.IsFunction] at h
        · rfl
  · intro obj f hreg hobj hfn ctx writer key it
    rw [applyMapFun_eq env id ctx writer key it st obj f hreg hobj hfn]
    generalize runMapElement env f obj ctx key it st = out
    obtain ⟨c, st1⟩ := out
    cases c with
    | returned v => exact Or.inl ⟨v, rfl, rfl⟩
    | threw e => exact Or.inr ⟨e, rfl, rfl⟩
  · intro obj f hreg hobj hfn acc value
    simp only [SKIP_SKStore_applyAccumulate, hreg, hobj, hfn, SKTryCatch, Bool.not_true,
      Bool.false_eq_true, if_false]
    generalize callFunction env f obj [env.SKStoreToNode acc, env.SKStoreToNode value] st = out
    obtain ⟨c, st1⟩ := out
    cases c with
    | returned v => exact Or.inl ⟨v, rfl, rfl⟩
    | threw e => exact Or.inr ⟨e, rfl, rfl⟩
  · intro obj f hreg hobj hfn acc value
    simp only [SKIP_SKStore_applyDismiss, hreg, hobj, hfn, SKTryCatch, Bool.not_true,
      Bool.false_eq_true, if_false]
    generalize callFunction env f obj [env.SKStoreToNode acc, env.SKStoreToNode value] st = out
    obtain ⟨c, st1⟩ := out
    cases c with
    | returned v =>
      refine Or.inl ⟨v, rfl, ?_⟩
      simp only
      split <;> rfl
    | threw e => exact Or.inr ⟨e, rfl, rfl⟩
  · intro obj f hreg hobj hfn key it
    simp only [SKIP_SKStore_applyConvertToRowFun, hreg, hobj, hfn, SKTryCatch, Bool.not_true,
      Bool.false_eq_true, if_false]
    generalize callFunction env f obj [env.SKStoreToNode key, JsValue.iterator it] st = out
    obtain ⟨c, st1⟩ := out
    cases c with
    | returned v => exact Or.inl ⟨v, rfl, rfl⟩
    | threw e => exact Or.inr ⟨e, rfl, rfl⟩

/-- C10 at concrete calls: identity 99 is not registered, identity 5 is a
number, identity 4 is an accumulator without `dismiss`; each call leaves one
`ThrowException` in the trace and nothing else. -/
theorem apply_callbacks_resolution_witness :
    (∃ e, SKIP_SKStore_applyMapFun (sampleEnv sampleCode) 99 5 9 12 3 sampleState =
      ThrowException e sampleState) ∧
    (∃ e, SKIP_SKStore_applyAccumulate (sampleEnv sampleCode) 5 12 14 sampleState =
      (nullptr, ThrowException e sampleState)) ∧
    (∃ e, SKIP_SKStore_applyDismiss (sampleEnv sampleCode) 4 12 14 sampleState =
      (nullptr, ThrowException e sampleState)) :=
  ⟨(apply_callbacks_resolution (sampleEnv sampleCode) 99 sampleState).1 (Or.inl rfl) 5 9 12 3,
   (apply_callbacks_resolution (sampleEnv sampleCode) 5 sampleState).2.1
     (Or.inr ⟨JsValue.number 7, rfl, Or.inl rfl⟩) 12 14,
   (apply_callbacks_resolution (sampleEnv sampleCode) 4 sampleState).2.2.1
     (Or.inr ⟨JsValue.object [("accumulate", JsValue.function 1)], rfl, Or.inr rfl⟩) 12 14⟩

/-! ## The context marker after `applyMapFun` -/

theorem State.stampedSteps_refl (st : State) : State.stampedSteps st st :=
  ⟨rfl, [], by simp, by simp, by simp⟩

theorem State.stampedSteps_trans {a b c : State} (hab : State.stampedSteps a b)
    (hbc : State.stampedSteps b c) : State.stampedSteps a c := by
  obtain ⟨hc1, n1, ht1, hm1, he1⟩ := hab
  obtain ⟨hc2, n2, ht2, hm2, he2⟩ := hbc
  refine ⟨hc2.trans hc1, n1 ++ n2, by rw [ht2, ht1, List.append_assoc], ?_, ?_⟩
  · rw [hm2, hm1, hc1, List.append_assoc, List.length_append, List.replicate_add]
  · intro e he
    rcases List.mem_append.mp he with h | h
    · exact he1 e h
    · exact he2 e h

/-- Every effect of an `EHandle` method is stamped with the marker the method
was called under, and none is a write. -/
theorem callMethod_stampedSteps (env : Env) (m : Method) (self : EHandle)
    (args : List JsValue) (st : State) :
    State.stampedSteps st (callMethod env m self args st).2 := by
  by_cases hctx : st.context = nullptr
  · rw [methods_null_context env m self args st hctx]
    exact ⟨rfl, [Event.throwException contextError], rfl, rfl, by simp [Event.isWrite]⟩
  · cases m
    all_goals
      simp only [callMethod, EHandle.Get, EHandle.MaybeGet, EHandle.Size, EHandle.Map,
        EHandle.MapReduce, EHandle.MapTo, GetContext, hctx, if_false]
    all_goals repeat' split
    all_goals
      simp [State.stampedSteps, ThrowException, State.emit, CreateHandle, EHandle.Create,
        Event.isWrite, List.replicate]

/-- Every effect of a user function is stamped with the marker the function
was started under, and none is a write. -/
theorem Script.run_stampedSteps (env : Env) (s : Script) (st : State) :
    State.stampedSteps st (Script.run env s st).2 := by
  induction s generalizing st with
  | ret v => exact State.stampedSteps_refl st
  | raise e => exact State.stampedSteps_refl st
  | invoke m self args k ih =>
    simp only [Script.run]
    exact State.stampedSteps_trans (callMethod_stampedSteps env m self args st) (ih _ _)

/-- The run of `mapElement` inside `SKIP_SKStore_applyMapFun`: the call and
everything the closure does are stamped with `ctx`, and nothing is written. -/
theorem runMapElement_stamped (env : Env) (mapElement : Nat) (mapper : JsValue)
    (ctx : SKCONTEXT) (key : CJSON) (it : SKITERATOR) (st : State) :
    (runMapElement env mapElement mapper ctx key it st).2.context = ctx ∧
    ∃ evs, (runMapElement env mapElement mapper ctx key it st).2.trace = st.trace ++ evs ∧
      (runMapElement env mapElement mapper ctx key it st).2.markers =
        st.markers ++ List.replicate evs.length ctx ∧
      ∀ e ∈ evs, e.isWrite = false := by
  obtain ⟨hc, new, ht, hm, he⟩ := Script.run_stampedSteps env
    (env.code mapElement mapper [env.SKStoreToNode key, JsValue.iterator it])
    ((SwitchContext ctx st).2.emit
      (Event.call mapElement mapper [env.SKStoreToNode key, JsValue.iterator it]))
  refine ⟨?_, Event.call mapElement mapper [env.SKStoreToNode key, JsValue.iterator it]
    :: new, ?_, ?_, ?_⟩
  · rw [runMapElement, callFunction, hc]; rfl
  · rw [runMapElement, callFunction, ht]; simp [SwitchContext, State.emit]
  · rw [runMapElement, callFunction, hm]
    simp [SwitchContext, State.emit, List.replicate_succ]
  · intro e h
    rcases List.mem_cons.mp h with h | h
    · subst h; rfl
    · exact he e h

/-- The write loop stamps each of its writes with the marker it runs under. -/
theorem writeEntries_markers (env : Env) (writer : SKWRITER) (entries : List JsValue)
    (st : State) :
    (writeEntries env writer entries st).markers =
      st.markers ++ List.replicate entries.length st.context := by
  induction entries generalizing st with
  | nil => simp [writeEntries]
  | cons value rest ih =>
    simp only [writeEntries]
    rw [ih]
    simp [State.emit, List.replicate_succ]

/-- C11: on every path of `SKIP_SKStore_applyMapFun` (the identity does not
resolve, the mapper is not an object, `mapElement` is not a function, the
closure returns, the closure throws) the current-context marker after the
call is the marker from before the call, and every write the call issues is
stamped with that marker, so it was issued after the marker had been put
back.  On the success path the effects of the call split in two: first the
call of the closure and what the closure did, all stamped with `ctx` and
none of them a write, then the writes, all stamped with the marker from
before the call. -/
theorem applyMapFun_restores_context (env : Env) (mapperId : Nat) (ctx : SKCONTEXT)
    (writer : SKWRITER) (key : CJSON) (it : SKITERATOR) (st : State) :
    GetContext (SKIP_SKStore_applyMapFun env mapperId ctx writer key it st) = GetContext st ∧
    (∃ new stamps,
      (SKIP_SKStore_applyMapFun env mapperId ctx writer key it st).trace = st.trace ++ new ∧
      (SKIP_SKStore_applyMapFun env mapperId ctx writer key it st).markers =
        st.markers ++ stamps ∧
      stamps.length = new.length ∧
      ∀ p ∈ new.zip stamps, p.1.isWrite = true → p.2 = GetContext st) ∧
    (∀ mapper mapElement v, GetHandle st mapperId = some mapper → mapper.IsObject = true →
      mapper.Get "mapElement" = JsValue.function mapElement →
      (runMapElement env mapElement mapper ctx key it st).1 = Completion.returned v →
      ∃ closureEvents writes,
        (SKIP_SKStore_applyMapFun env mapperId ctx writer key it st).trace =
          st.trace ++ closureEvents ++ writes ∧
        (SKIP_SKStore_applyMapFun env mapperId ctx writer key it st).markers =
          st.markers ++ List.replicate closureEvents.length ctx ++
            List.replicate writes.length (GetContext st) ∧
        (∀ e ∈ closureEvents, e.isWrite = false) ∧
        (∀ e ∈ writes, e.isWrite = true) ∧
        writes.length = (ArrayFrom v).length) := by
  have hsucc : ∀ mapper mapElement v, GetHandle st mapperId = some mapper →
      mapper.IsObject = true → mapper.Get "mapElement" = JsValue.function mapElement →
      (runMapElement env mapElement mapper ctx key it st).1 = Completion.returned v →
      ∃ closureEvents writes,
        (SKIP_SKStore_applyMapFun env mapperId ctx writer key it st).trace =
          st.trace ++ closureEvents ++ writes ∧
        (SKIP_SKStore_applyMapFun env mapperId ctx writer key it st).markers =
          st.markers ++ List.replicate closureEvents.length ctx ++
            List.replicate writes.length (GetContext st) ∧
        (∀ e ∈ closureEvents, e.isWrite = false) ∧
        (∀ e ∈ writes, e.isWrite = true) ∧
        writes.length = (ArrayFrom v).length := by
    intro mapper mapElement v hreg hobj hfn hret
    obtain ⟨_, evs, ht, hm, he⟩ := runMapElement_stamped env mapElement mapper ctx key it st
    rw [applyMapFun_eq env mapperId ctx writer key it st mapper mapElement hreg hobj hfn]
    generalize runMapElement env mapElement mapper ctx key it st = out at hret ht hm
    obtain ⟨c, st1⟩ := out
    simp only at hret ht hm
    subst hret
    simp only
    refine ⟨evs, (ArrayFrom v).map (fun value =>
      Event.writerSet writer (env.NodeToSKStore (value.GetIndex 0))
        (env.NodeToSKStore (value.GetIndex 1))), ?_, ?_, he, ?_, by simp⟩
    · rw [(writeEntries_spec env writer _ _).1]
      simp [RestoreContext, ht]
    · rw [writeEntries_markers]
      simp [RestoreContext, hm, GetContext]
    · intro e h
      obtain ⟨x, _, rfl⟩ := List.mem_map.mp h
      rfl
  have hquiet : ∀ (new : List Event) (stamps : List SKCONTEXT),
      (∀ e ∈ new, e.isWrite = false) →
      ∀ p ∈ new.zip stamps, p.1.isWrite = true → p.2 = GetContext st := by
    intro new stamps hnew p hp hw
    obtain ⟨a, b⟩ := p
    rw [hnew a (List.of_mem_zip hp).1] at hw
    cases hw
  have hbad : ∀ e, GetContext (ThrowException e st) = GetContext st ∧
      ∃ new stamps, (ThrowException e st).trace = st.trace ++ new ∧
        (ThrowException e st).markers = st.markers ++ stamps ∧
        stamps.length = new.length ∧
        ∀ p ∈ new.zip stamps, p.1.isWrite = true → p.2 = GetContext st := by
    intro e
    refine ⟨rfl, [Event.throwException e], [st.context], rfl, rfl, rfl, hquiet _ _ ?_⟩
    intro ev hev
    rw [List.mem_singleton.mp hev]
    rfl
  have hboth : GetContext (SKIP_SKStore_applyMapFun env mapperId ctx writer key it st) =
        GetContext st ∧
      ∃ new stamps,
        (SKIP_SKStore_applyMapFun env mapperId ctx writer key it st).trace =
          st.trace ++ new ∧
        (SKIP_SKStore_applyMapFun env mapperId ctx writer key it st).markers =
          st.markers ++ stamps ∧
        stamps.length = new.length ∧
        ∀ p ∈ new.zip stamps, p.1.isWrite = true → p.2 = GetContext st := by
    cases hg : GetHandle st mapperId with
    | none =>
      have heq : SKIP_SKStore_applyMapFun env mapperId ctx writer key it st =
          ThrowException (Exception.Error "Unable to retrieve EHandle.map function.") st := by
        simp [SKIP_SKStore_applyMapFun, hg]
      rw [heq]
      exact hbad _
    | some mapper =>
      cases hobj : mapper.IsObject with
      | false =>
        have heq : SKIP_SKStore_applyMapFun env mapperId ctx writer key it st =
            ThrowException (Exception.Error "Invalid EHandle.map mapper object.") st := by
          simp [SKIP_SKStore_applyMapFun, hg, hobj]
        rw [heq]
        exact hbad _
      | true =>
        cases hfn : mapper.Get "mapElement" with
        | function mapElement =>
          obtain ⟨hctx1, evs, ht, hm, he⟩ :=
            runMapElement_stamped env mapElement mapper ctx key it st
          cases hout : (runMapElement env mapElement mapper ctx key it st).1 with
          | returned v =>
            obtain ⟨closureEvents, writes, htr, hmk, hce, hwr, _⟩ :=
              hsucc mapper mapElement v hg hobj hfn hout
            refine ⟨?_, closureEvents ++ writes,
              List.replicate closureEvents.length ctx ++
                List.replicate writes.length (GetContext st),
              by rw [htr, List.append_assoc], by rw [hmk, List.append_assoc],
              by simp, ?_⟩
            · rw [applyMapFun_eq env mapperId ctx writer key it st mapper mapElement hg hobj
                hfn]
              generalize runMapElement env mapElement mapper ctx key it st = out at hout
              obtain ⟨c, st1⟩ := out
              simp only at hout
              subst hout
              simp only [GetContext]
              rw [(writeEntries_spec env writer _ _).2.1]
              rfl
            · intro p hp hw
              rw [List.zip_append (by simp)] at hp
              obtain ⟨a, b⟩ := p
              rcases List.mem_append.mp hp with h | h
              · rw [hce a (List.of_mem_zip h).1] at hw
                cases hw
              · exact List.eq_of_mem_replicate (List.of_mem_zip h).2
          | threw e =>
            rw [applyMapFun_eq env mapperId ctx writer key it st mapper mapElement hg hobj hfn]
            generalize runMapElement env mapElement mapper ctx key it st = out
              at hout ht hm
            obtain ⟨c, st1⟩ := out
            simp only at hout ht hm
            subst hout
            refine ⟨rfl, evs ++ [Event.closureError e],
              List.replicate evs.length ctx ++ [st.context], ?_, ?_, by simp,
              hquiet _ _ ?_⟩
            · simp [State.emit, RestoreContext, ht]
            · simp [State.emit, RestoreContext, hm]
            · intro ev hev
              rcases List.mem_append.mp hev with h | h
              · exact he ev h
              · rw [List.mem_singleton.mp h]
                rfl
        | _ =>
          have heq : SKIP_SKStore_applyMapFun env mapperId ctx writer key it st =
              ThrowException (Exception.TypeError
                "Invalid EHandle.map mapper object. (mapElement method not defined)") st := by
            simp [SKIP_SKStore_applyMapFun, hg, hobj, hfn]
          rw [heq]
          exact hbad _
  exact ⟨hboth.1, hboth.2, hsucc⟩

/-- C11 at concrete calls: started without a context (marker 0) and run with
context 5, the mapper with identity 0 returns two pairs: the call and the
read of the closure are stamped 5, the two writes are stamped 0, and the
marker is 0 after the call; it is 0 as well after the mapper with identity 3
has thrown and after the unregistered identity 99 was refused. -/
theorem applyMapFun_restores_context_witness :
    (SKIP_SKStore_applyMapFun (sampleEnv sampleCode) 0 5 9 12 3 sampleState).trace =
      [Event.call 0 (JsValue.object [("mapElement", JsValue.function 0)])
          [JsValue.number 1, JsValue.iterator 3],
        Event.get 5 "other" 12, Event.writerSet 9 12 16, Event.writerSet 9 13 20] ∧
    (SKIP_SKStore_applyMapFun (sampleEnv sampleCode) 0 5 9 12 3 sampleState).markers =
      [5, 5, 0, 0] ∧
    GetContext (SKIP_SKStore_applyMapFun (sampleEnv sampleCode) 0 5 9 12 3 sampleState) = 0 ∧
    GetContext (SKIP_SKStore_applyMapFun (sampleEnv sampleCode) 3 5 9 12 3 sampleState) = 0 ∧
    GetContext (SKIP_SKStore_applyMapFun (sampleEnv sampleCode) 99 5 9 12 3 sampleState) = 0 ∧
    ∃ closureEvents writes,
      (SKIP_SKStore_applyMapFun (sampleEnv sampleCode) 0 5 9 12 3 sampleState).trace =
        sampleState.trace ++ closureEvents ++ writes ∧
      (SKIP_SKStore_applyMapFun (sampleEnv sampleCode) 0 5 9 12 3 sampleState).markers =
        sampleState.markers ++ List.replicate closureEvents.length 5 ++
          List.replicate writes.length (GetContext sampleState) ∧
      (∀ e ∈ closureEvents, e.isWrite = false) ∧
      (∀ e ∈ writes, e.isWrite = true) ∧
      writes.length = (ArrayFrom (JsValue.array
        [JsValue.array [JsValue.number 1, JsValue.number 3],
         JsValue.array [JsValue.string "k", JsValue.number 5]])).length :=
  ⟨rfl, rfl,
   (applyMapFun_restores_context (sampleEnv sampleCode) 0 5 9 12 3 sampleState).1,
   (applyMapFun_restores_context (sampleEnv sampleCode) 3 5 9 12 3 sampleState).1,
   (applyMapFun_restores_context (sampleEnv sampleCode) 99 5 9 12 3 sampleState).1,
   (applyMapFun_restores_context (sampleEnv sampleCode) 0 5 9 12 3 sampleState).2.2
     (JsValue.object [("mapElement", JsValue.function 0)]) 0
     (JsValue.array
       [JsValue.array [JsValue.number 1, JsValue.number 3],
        JsValue.array [JsValue.string "k", JsValue.number 5]]) rfl rfl rfl rfl⟩

/-! ## Incremental propagation against evaluation from scratch -/

namespace engine

theorem foldl_reevaluate {K V K2 V2 : Type} [DecidableEq K]
    (closure : K → List V → List (K2 × V2)) (up : Eager K V) (ks : List K)
    (produced : K → List (K2 × V2)) (k : K) :
    ks.foldl (Derived.reevaluate closure up) produced k =
      if k ∈ ks then evalKey closure up k else produced k := by
  induction ks generalizing produced with
  | nil => simp
  | cons a rest ih =>
    simp only [List.foldl_cons, ih, List.mem_cons]
    by_cases hr : k ∈ rest
    · simp [hr]
    · by_cases ha : k = a
      · subst ha; simp [hr, Derived.reevaluate]
      · simp [hr, ha, Derived.reevaluate, Function.update_noteq ha]

/-- The invariant of the engine: every key outside of the change-set holds
the pairs the closure produces for its current values. -/
theorem after_invariant {K V K2 V2 : Type} [DecidableEq K] [DecidableEq V]
    (closure : K → List V → List (K2 × V2)) (ops : List (Op K V)) (k : K)
    (hk : k ∉ (Derived.after closure ops : Derived K V K2 V2).upstream.changed) :
    (Derived.after closure ops : Derived K V K2 V2).produced k =
      evalKey closure (Derived.after closure ops : Derived K V K2 V2).upstream k := by
  induction ops using List.reverseRecOn generalizing k with
  | nil => rfl
  | append_singleton ops op ih =>
    simp only [Derived.after, List.foldl_append, List.foldl_cons, List.foldl_nil] at hk ⊢
    change k ∉ (Derived.step closure (Derived.after closure ops) op).upstream.changed at hk
    change (Derived.step closure (Derived.after closure ops) op).produced k =
      evalKey closure (Derived.step closure (Derived.after closure ops) op).upstream k
    cases op with
    | write a v =>
      simp only [Derived.step, Eager.write, List.mem_append, List.mem_singleton, not_or] at hk ⊢
      rw [ih k hk.1]
      simp [evalKey, Function.update_noteq hk.2]
    | retract a v =>
      simp only [Derived.step, Eager.retract, List.mem_append, List.mem_singleton,
        not_or] at hk ⊢
      rw [ih k hk.1]
      simp [evalKey, Function.update_noteq hk.2]
    | propagate =>
      simp only [Derived.step, Derived.propagate, foldl_reevaluate, List.mem_dedup]
      by_cases hc : k ∈ (Derived.after closure ops : Derived K V K2 V2).upstream.changed
      · simp [hc, evalKey]
      · simp [hc, ih k hc, evalKey]

/-- C8: for every transform closure and every sequence of upstream writes and
retractions, with propagation cycles anywhere in between, the contents of
the derived collection after a propagation cycle equal the result of
evaluating the closure from scratch over the current upstream state, and so
do the values under every output key. -/
theorem propagate_eq_fromScratch {K V K2 V2 : Type} [DecidableEq K] [DecidableEq V]
    [DecidableEq K2] (closure : K → List V → List (K2 × V2)) (ops : List (Op K V)) :
    (Derived.after closure (ops ++ [Op.propagate]) : Derived K V K2 V2).contents =
      fromScratch closure
        (Derived.after closure (ops ++ [Op.propagate]) : Derived K V K2 V2).upstream ∧
    ∀ k2, (Derived.after closure (ops ++ [Op.propagate]) : Derived K V K2 V2).get k2 =
      ((fromScratch closure
        (Derived.after closure (ops ++ [Op.propagate]) : Derived K V K2 V2).upstream).filter
          (fun p => p.1 = k2)).map Prod.snd := by
  have hall : ∀ k,
      (Derived.after closure (ops ++ [Op.propagate]) : Derived K V K2 V2).produced k
      = evalKey closure
        (Derived.after closure (ops ++ [Op.propagate]) : Derived K V K2 V2).upstream k := by
    intro k
    apply after_invariant
    simp [Derived.after, Derived.step, Derived.propagate]
  have hc : (Derived.after closure (ops ++ [Op.propagate]) : Derived K V K2 V2).contents =
      fromScratch closure
        (Derived.after closure (ops ++ [Op.propagate]) : Derived K V K2 V2).upstream := by
    simp only [Derived.contents, fromScratch]
    congr 1
    funext k
    exact hall k
  exact ⟨hc, fun k2 => by simp only [Derived.get, hc]⟩

/-- C8 on the scenario of the spec: after the writes `(1, "a")`, `(1, "b")` and a
propagation cycle the derived collection holds `"a"` and `"b"` under key 1,
which is what the closure yields from scratch. -/
theorem propagate_eq_fromScratch_witness :
    (Derived.after byLength [Op.write 1 "a", Op.write 1 "b", Op.propagate] :
      Derived Nat String Nat String).get 1 = ["a", "b"] ∧
    (Derived.after byLength [Op.write 1 "a", Op.write 1 "b"] :
      Derived Nat String Nat String).get 1 = [] :=
  ⟨((propagate_eq_fromScratch byLength [Op.write 1 "a", Op.write 1 "b"]).2 1).trans
    (by decide), by decide⟩

end engine

end skstore
